import Mathlib

/-!
# A shallow embedding of the privacyscanner fingerprinting extractor

This file embeds the module
`privacyscanner/scanmodules/chromedevtools/extractors/fingerprinting.py`
into Lean and proves the stated properties of its behaviour.

Modelling conventions:

* Argument and property values carried by log messages are JSON-like values
  that the extractor never inspects; it only compares them structurally
  (Python `==` on the containing dicts).  They are therefore modelled by an
  abstract type `α` with `DecidableEq`.
* A Python dict access `message[k]` on a missing key raises `KeyError`,
  and the reference to an unbound local raises `UnboundLocalError`; both
  exceptions escape the extractor uncaught and abort the scan.  Handlers are
  therefore `Option`-valued, with `none` standing for an escaped exception.
* `toDataURL` return values are data-URL strings, so the `retval` field and
  the stored canvas image candidate are modelled as `String`.
* `base64.b64decode` is modelled by `b64decode` below: an ASCII check
  followed by the quad-decoding loop of binascii.a2b_base64 in non-strict
  mode; `none` models a raised `ValueError`.  Byte strings are `List Nat`.
-/

namespace Privacyscanner

/-- One intercepted call as stored by the extractor: the Python dict
`{method: ..., arguments: ...}` built in the `_receive_*_log` methods. -/
structure CallRecord (α : Type) where
  method : String
  arguments : List α
deriving DecidableEq

/-- A record stored in the `calls` list of the misc category: either the
`{property: ..., value: ...}` dict (tracked accessor names) or the
`{method: ..., arguments: ...}` dict.  The two dict shapes have disjoint
key sets, so Python `==` never identifies records of different shapes;
a tagged union is a faithful model. -/
inductive MiscRecord (α : Type) where
  | propertyAccess (property : String) (value : α)
  | methodCall (method : String) (arguments : List α)
deriving DecidableEq

/-- A log message delivered from the page.  `name` is always present in
messages emitted by the instrumentation code; `arguments`, `value` and
`retval` model the optional dict keys of the same names (`none` = key
absent). -/
structure Message (α : Type) where
  name : String
  arguments : Option (List α)
  value : Option α
  retval : Option String
deriving DecidableEq

/-- One `(log_type, message, call_stack)` triple as delivered to
`FingerprintingExtractor.receive_log`. -/
structure LogTriple (α : Type) where
  channel : String
  message : Message α
  stack : List String
deriving DecidableEq

/-- The mutable state of a `FingerprintingExtractor` instance during the
observation phase: the four `calls` lists plus the call-stack and canvas
image slots set in `__init__`. -/
structure FPState (α : Type) where
  canvasCalls : List (CallRecord α)
  audioCalls : List (CallRecord α)
  webglCalls : List (CallRecord α)
  miscCalls : List (MiscRecord α)
  canvasCallStack : Option (List String)
  audioCallStack : Option (List String)
  webglCallStack : Option (List String)
  miscCallStack : Option (List String)
  canvasImage : Option String
deriving DecidableEq

/-- The state created by `FingerprintingExtractor.__init__`. -/
def initState (α : Type) : FPState α :=
  { canvasCalls := [], audioCalls := [], webglCalls := [], miscCalls := [],
    canvasCallStack := none, audioCallStack := none, webglCallStack := none,
    miscCallStack := none, canvasImage := none }

def canvasChannel : String := "fingerprinting:canvas"

def audioChannel : String := "fingerprinting:audio"

def webglChannel : String := "fingerprinting:webgl"

def miscChannel : String := "fingerprinting:misc"

/-- The canvas export method name as it appears in log messages. -/
def exportMethod : String := "HTMLCanvasElement.toDataURL"

/-- `listofcheckedproperties` in `_receive_misc_log`. -/
def checkedProperties : List String :=
  ["userAgent", "language", "languages", "colorDepth"]

/-- `text_methods` of `_extract_canvas`. -/
def text_methods : List String :=
  ["CanvasRenderingContext2D.fillText", "CanvasRenderingContext2D.strokeText"]

variable {α : Type} [DecidableEq α]

/-- `FingerprintingExtractor._receive_canvas_log`: appends the call record
unconditionally; on the export method additionally stores the call stack
minus its first frame and the raw return value. -/
def receiveCanvasLog (message : Message α) (call_stack : List String)
    (st : FPState α) : Option (FPState α) :=
  match message.arguments with
  | none => none
  | some args =>
    let st1 := { st with canvasCalls := st.canvasCalls ++ [⟨message.name, args⟩] }
    if message.name = exportMethod then
      match message.retval with
      | none => none
      | some r =>
        some { st1 with canvasCallStack := some call_stack.tail,
                        canvasImage := some r }
    else
      some st1

/-- `FingerprintingExtractor._receive_audio_log`: appends the record only if
no structurally equal record is already present.  The call-stack capture is
commented out in the source, so `call_stack` is unused. -/
def receiveAudioLog (message : Message α) (_call_stack : List String)
    (st : FPState α) : Option (FPState α) :=
  match message.arguments with
  | none => none
  | some args =>
    let calldict : CallRecord α := ⟨message.name, args⟩
    if calldict ∈ st.audioCalls then some st
    else some { st with audioCalls := st.audioCalls ++ [calldict] }

/-- `FingerprintingExtractor._receive_webgl_log` (same policy as audio). -/
def receiveWebglLog (message : Message α) (_call_stack : List String)
    (st : FPState α) : Option (FPState α) :=
  match message.arguments with
  | none => none
  | some args =>
    let calldict : CallRecord α := ⟨message.name, args⟩
    if calldict ∈ st.webglCalls then some st
    else some { st with webglCalls := st.webglCalls ++ [calldict] }

/-- `FingerprintingExtractor._receive_misc_log`: tracked accessor names are
stored as `{property, value}`, other messages carrying an `arguments`
key as `{method, arguments}`; a message matching neither shape leaves
`calldict` unbound and the method raises (modelled as `none`).  Same dedup
as audio/webgl. -/
def receiveMiscLog (message : Message α) (_call_stack : List String)
    (st : FPState α) : Option (FPState α) :=
  let calldictOpt : Option (MiscRecord α) :=
    if message.name ∈ checkedProperties then
      match message.value with
      | none => none
      | some v => some (.propertyAccess message.name v)
    else
      match message.arguments with
      | none => none
      | some args => some (.methodCall message.name args)
  match calldictOpt with
  | none => none
  | some calldict =>
    if calldict ∈ st.miscCalls then some st
    else some { st with miscCalls := st.miscCalls ++ [calldict] }

/-- `FingerprintingExtractor.receive_log`: four sequential `if` statements,
each comparing the channel name for exact equality. -/
def receive_log (log_type : String) (message : Message α)
    (call_stack : List String) (st : FPState α) : Option (FPState α) :=
  match (if log_type = canvasChannel then receiveCanvasLog message call_stack st
         else some st) with
  | none => none
  | some st1 =>
    match (if log_type = audioChannel then receiveAudioLog message call_stack st1
           else some st1) with
    | none => none
    | some st2 =>
      match (if log_type = webglChannel then receiveWebglLog message call_stack st2
             else some st2) with
      | none => none
      | some st3 =>
        if log_type = miscChannel then receiveMiscLog message call_stack st3
        else some st3

/-- Delivery of a whole sequence of log events, in order. -/
def receiveAll : List (LogTriple α) → FPState α → Option (FPState α)
  | [], st => some st
  | t :: rest, st =>
    match receive_log t.channel t.message t.stack st with
    | none => none
    | some st1 => receiveAll rest st1

/-- Value of one base64-alphabet character (`A-Z`, `a-z`, `0-9`, `+`, `/`). -/
def b64charVal (c : Char) : Option Nat :=
  if 'A' ≤ c ∧ c ≤ 'Z' then some (c.toNat - 'A'.toNat)
  else if 'a' ≤ c ∧ c ≤ 'z' then some (c.toNat - 'a'.toNat + 26)
  else if '0' ≤ c ∧ c ≤ '9' then some (c.toNat - '0'.toNat + 52)
  else if c = '+' then some 62
  else if c = '/' then some 63
  else none

/-- The quad-decoding loop of CPython binascii.a2b_base64 in non-strict
mode (the call made by `base64.b64decode`): characters outside the alphabet
are skipped; a padding character seen at quad position two or three that
completes the quad ends the decode, discarding the rest of the input;
padding characters seen earlier in a quad are skipped; input that ends at a
nonzero quad position raises `binascii.Error` (a `ValueError`), modelled by
`none`.  `quad_pos`, `leftchar` and `pads` mirror the loop variables of the
C implementation, and bytes are emitted exactly at the quad transitions
where the C code writes them. -/
def a2b_base64 (quad_pos leftchar pads : Nat) : List Char → Option (List Nat)
  | [] => if quad_pos = 0 then some [] else none
  | c :: rest =>
    if c = '=' then
      if 2 ≤ quad_pos ∧ 4 ≤ quad_pos + (pads + 1) then some []
      else if 2 ≤ quad_pos then a2b_base64 quad_pos leftchar (pads + 1) rest
      else a2b_base64 quad_pos leftchar pads rest
    else
      match b64charVal c with
      | none => a2b_base64 quad_pos leftchar pads rest
      | some v =>
        match quad_pos with
        | 0 => a2b_base64 1 v 0 rest
        | 1 => (a2b_base64 2 (v % 16) 0 rest).map
            (fun bs => (leftchar * 4 + v / 16) :: bs)
        | 2 => (a2b_base64 3 (v % 4) 0 rest).map
            (fun bs => (leftchar * 16 + v / 4) :: bs)
        | _ => (a2b_base64 0 0 0 rest).map
            (fun bs => (leftchar * 64 + v) :: bs)

/-- Model of Python `base64.b64decode` on a string argument: the string is
first ASCII-encoded (a non-ASCII character raises `UnicodeEncodeError`, a
`ValueError`), then fed to binascii.a2b_base64 in non-strict mode; `none`
models a raised `ValueError`. -/
def b64decode (s : List Char) : Option (List Nat) :=
  if s.any (fun c => 128 ≤ c.toNat) then none
  else a2b_base64 0 0 0 s

/-- Python `s.split(sep, 1)` unpacked into two parts: `none` when `sep` does
not occur (the two-element unpacking then raises `ValueError`). -/
def splitFirst (sep : Char) : List Char → Option (List Char × List Char)
  | [] => none
  | c :: rest =>
    if c = sep then some ([], rest)
    else
      match splitFirst sep rest with
      | none => none
      | some (l, r) => some (c :: l, r)

/-- Python `needle in hay` on strings (substring containment). -/
def containsSubstring (needle : List Char) : List Char → Bool
  | [] => needle.isEmpty
  | c :: rest => needle.isPrefixOf (c :: rest) || containsSubstring needle rest

/-- The `try`-block of `_extract_canvas`: split the data URL at the first
comma; if the header mentions `base64`, decode the payload.  Any
`ValueError` on the way (no comma, bad base64) yields `none`
(`content` stays `None` in the source). -/
def dataUrlContent (img : String) : Option (List Nat) :=
  match splitFirst ',' img.toList with
  | none => none
  | some (infoPart, dataPart) =>
    if containsSubstring "base64".toList infoPart then b64decode dataPart
    else none

/-- The `uses_text` loop of `_extract_canvas`. -/
def usesText (calls : List (CallRecord α)) : Bool :=
  calls.any (fun call => text_methods.contains call.method)

/-- Per-category verdict as included in the final result dict.
`call_stack = none` models the absence of the `call_stack` key. -/
structure CategoryResult (ρ : Type) where
  calls : List ρ
  is_fingerprinting : Bool
  call_stack : Option (List String)
deriving DecidableEq

/-- The finalized scan result: the four category dicts plus the optional
`fingerprinting_canvas` file content passed to `result.add_file`. -/
structure ScanResult (α : Type) where
  canvas : CategoryResult (CallRecord α)
  audio : CategoryResult (CallRecord α)
  webgl : CategoryResult (CallRecord α)
  misc : CategoryResult (MiscRecord α)
  fingerprinting_canvas : Option (List Nat)
deriving DecidableEq

/-- The `if self._X_call_stack is not None` blocks at the end of
`_extract_canvas`, shared by the audio, webgl and misc categories. -/
def finalizeHookCategory {ρ : Type} (calls : List ρ)
    (stack : Option (List String)) : CategoryResult ρ :=
  match stack with
  | some cs => ⟨calls, true, some cs⟩
  | none => ⟨calls, false, none⟩

/-- `FingerprintingExtractor.extract_information` followed by
`_extract_canvas`.  `none` models the uncaught `AttributeError` raised by
`None.split` when the canvas decision is positive but no image candidate
was stored (unreachable from delivered events, since the call stack and the
image are stored together). -/
def extract_information (st : FPState α) : Option (ScanResult α) :=
  if usesText st.canvasCalls && st.canvasCallStack.isSome then
    match st.canvasImage with
    | none => none
    | some img =>
      let content := dataUrlContent img
      let artifact :=
        match content with
        | some bs => if bs = [] then none else some bs
        | none => none
      some { canvas := ⟨st.canvasCalls, true, st.canvasCallStack⟩,
             audio := finalizeHookCategory st.audioCalls st.audioCallStack,
             webgl := finalizeHookCategory st.webglCalls st.webglCallStack,
             misc := finalizeHookCategory st.miscCalls st.miscCallStack,
             fingerprinting_canvas := artifact }
  else
    some { canvas := ⟨st.canvasCalls, false, none⟩,
           audio := finalizeHookCategory st.audioCalls st.audioCallStack,
           webgl := finalizeHookCategory st.webglCalls st.webglCallStack,
           misc := finalizeHookCategory st.miscCalls st.miscCallStack,
           fingerprinting_canvas := none }

/-- A JavaScript function value, modelled as a pure map from the receiver
(`this`) and the argument list to the return value. -/
def JSFun (v : Type) := v → List v → v

/-- The log event emitted by the wrapper that `instrumentFunction` builds. -/
structure FunctionLogEvent (v : Type) where
  logType : String
  name : String
  arguments : List v
  retval : v
deriving DecidableEq

/-- The wrapper returned by `instrumentFunction` in `INSTRUMENTATION_JS`:
its body computes `retval = func.apply(this, arguments)`, emits the log
event, and ends without a `return` statement, so the wrapped call itself
evaluates to JavaScript `undefined` (`undefinedVal`). -/
def instrumentFunction {v : Type} (undefinedVal : v) (func : JSFun v)
    (name log_type : String) : v → List v → v × FunctionLogEvent v :=
  fun thisArg args =>
    let retval := func thisArg args
    (undefinedVal,
     { logType := log_type, name := name, arguments := args, retval := retval })

/-! ## Concrete example data used by the claim witnesses -/

/-- An original function (returning the value 5) wrapped for exhibiting the
behaviour of `instrumentFunction`. -/
def origFunc : JSFun (Option Nat) := fun _ _ => some 5

def exFillTriple : LogTriple Nat :=
  ⟨canvasChannel,
   ⟨"CanvasRenderingContext2D.fillText", some [1, 2], none, none⟩,
   ["wrapper", "pageFun"]⟩

def exExportTriple : LogTriple Nat :=
  ⟨canvasChannel,
   ⟨"HTMLCanvasElement.toDataURL", some [], none,
    some "data:image/png;base64,aGVsbG8="⟩,
   ["wrapper", "exportSite"]⟩

def exAudioTriple : LogTriple Nat :=
  ⟨audioChannel, ⟨"AudioContext.createAnalyser", some [7], none, none⟩,
   ["wrapper", "caller"]⟩

/-- State after delivering `exFillTriple` then `exExportTriple`. -/
def exCanvasState : FPState Nat :=
  { initState Nat with
    canvasCalls := [⟨"CanvasRenderingContext2D.fillText", [1, 2]⟩,
                    ⟨"HTMLCanvasElement.toDataURL", []⟩],
    canvasCallStack := some ["exportSite"],
    canvasImage := some "data:image/png;base64,aGVsbG8=" }

/-- Finalized result of `exCanvasState`. -/
def exCanvasResult : ScanResult Nat :=
  { canvas := ⟨[⟨"CanvasRenderingContext2D.fillText", [1, 2]⟩,
               ⟨"HTMLCanvasElement.toDataURL", []⟩], true, some ["exportSite"]⟩,
    audio := ⟨[], false, none⟩,
    webgl := ⟨[], false, none⟩,
    misc := ⟨[], false, none⟩,
    fingerprinting_canvas := some [104, 101, 108, 108, 111] }

/-- State after delivering `exAudioTriple` alone. -/
def exAudioState : FPState Nat :=
  { initState Nat with audioCalls := [⟨"AudioContext.createAnalyser", [7]⟩] }

/-- Finalized result of `exAudioState`. -/
def exAudioResult : ScanResult Nat :=
  { canvas := ⟨[], false, none⟩,
    audio := ⟨[⟨"AudioContext.createAnalyser", [7]⟩], false, none⟩,
    webgl := ⟨[], false, none⟩,
    misc := ⟨[], false, none⟩,
    fingerprinting_canvas := none }

/-- State after delivering fill, export, fill. -/
def exThreeState : FPState Nat :=
  { initState Nat with
    canvasCalls := [⟨"CanvasRenderingContext2D.fillText", [1, 2]⟩,
                    ⟨"HTMLCanvasElement.toDataURL", []⟩,
                    ⟨"CanvasRenderingContext2D.fillText", [1, 2]⟩],
    canvasCallStack := some ["exportSite"],
    canvasImage := some "data:image/png;base64,aGVsbG8=" }

/-- A canvas state whose image candidate has a base64 header but an empty
payload after the comma. -/
def stEmptyPayload : FPState Nat :=
  { initState Nat with
    canvasCalls := [⟨"CanvasRenderingContext2D.fillText", []⟩],
    canvasCallStack := some [],
    canvasImage := some "data:image/png;base64," }

/-- A canvas state whose image candidate decodes to the bytes of `hello`. -/
def stHello : FPState Nat :=
  { initState Nat with
    canvasCalls := [⟨"CanvasRenderingContext2D.fillText", []⟩],
    canvasCallStack := some [],
    canvasImage := some "data:image/png;base64,aGVsbG8=" }

/-! ## Routing helper lemmas -/

theorem canvas_ne_audio : canvasChannel ≠ audioChannel := by decide

theorem canvas_ne_webgl : canvasChannel ≠ webglChannel := by decide

theorem canvas_ne_misc : canvasChannel ≠ miscChannel := by decide

theorem audio_ne_canvas : audioChannel ≠ canvasChannel := by decide

theorem audio_ne_webgl : audioChannel ≠ webglChannel := by decide

theorem audio_ne_misc : audioChannel ≠ miscChannel := by decide

theorem webgl_ne_canvas : webglChannel ≠ canvasChannel := by decide

theorem webgl_ne_audio : webglChannel ≠ audioChannel := by decide

theorem webgl_ne_misc : webglChannel ≠ miscChannel := by decide

theorem misc_ne_canvas : miscChannel ≠ canvasChannel := by decide

theorem misc_ne_audio : miscChannel ≠ audioChannel := by decide

theorem misc_ne_webgl : miscChannel ≠ webglChannel := by decide

/-- On the canvas channel, `receive_log` is exactly the canvas handler. -/
theorem receive_log_canvas_eq (m : Message α) (cs : List String) (st : FPState α) :
    receive_log canvasChannel m cs st = receiveCanvasLog m cs st := by
  cases h : receiveCanvasLog m cs st with
  | none => simp [receive_log, h, canvas_ne_audio, canvas_ne_webgl, canvas_ne_misc]
  | some st1 => simp [receive_log, h, canvas_ne_audio, canvas_ne_webgl, canvas_ne_misc]

/-- On the audio channel, `receive_log` is exactly the audio handler. -/
theorem receive_log_audio_eq (m : Message α) (cs : List String) (st : FPState α) :
    receive_log audioChannel m cs st = receiveAudioLog m cs st := by
  cases h : receiveAudioLog m cs st with
  | none => simp [receive_log, h, audio_ne_canvas, audio_ne_webgl, audio_ne_misc]
  | some st1 => simp [receive_log, h, audio_ne_canvas, audio_ne_webgl, audio_ne_misc]

/-- On the webgl channel, `receive_log` is exactly the webgl handler. -/
theorem receive_log_webgl_eq (m : Message α) (cs : List String) (st : FPState α) :
    receive_log webglChannel m cs st = receiveWebglLog m cs st := by
  cases h : receiveWebglLog m cs st with
  | none => simp [receive_log, h, webgl_ne_canvas, webgl_ne_audio, webgl_ne_misc]
  | some st1 => simp [receive_log, h, webgl_ne_canvas, webgl_ne_audio, webgl_ne_misc]

/-- On the misc channel, `receive_log` is exactly the misc handler. -/
theorem receive_log_misc_eq (m : Message α) (cs : List String) (st : FPState α) :
    receive_log miscChannel m cs st = receiveMiscLog m cs st := by
  cases h : receiveMiscLog m cs st with
  | none => simp [receive_log, h, misc_ne_canvas, misc_ne_audio, misc_ne_webgl]
  | some st1 => simp [receive_log, h, misc_ne_canvas, misc_ne_audio, misc_ne_webgl]

/-- An unrecognized channel leaves the state untouched and raises nothing. -/
theorem receive_log_other_eq (log_type : String) (m : Message α)
    (cs : List String) (st : FPState α)
    (h1 : log_type ≠ canvasChannel) (h2 : log_type ≠ audioChannel)
    (h3 : log_type ≠ webglChannel) (h4 : log_type ≠ miscChannel) :
    receive_log log_type m cs st = some st := by
  simp [receive_log, h1, h2, h3, h4]

/-! ## Handler specification lemmas -/

/-- Successful runs of the audio handler perform exactly the dedup-append of
the `{method, arguments}` record. -/
theorem receiveAudioLog_spec {m : Message α} {cs : List String}
    {st st' : FPState α} (h : receiveAudioLog m cs st = some st') :
    ∃ args, m.arguments = some args ∧
      st' = (if (⟨m.name, args⟩ : CallRecord α) ∈ st.audioCalls then st
             else { st with audioCalls := st.audioCalls ++ [⟨m.name, args⟩] }) := by
  unfold receiveAudioLog at h
  cases harg : m.arguments with
  | none => rw [harg] at h; exact absurd h (by simp)
  | some args =>
    rw [harg] at h
    refine ⟨args, rfl, ?_⟩
    split at h <;> split <;> simp_all

/-- Successful runs of the webgl handler perform exactly the dedup-append. -/
theorem receiveWebglLog_spec {m : Message α} {cs : List String}
    {st st' : FPState α} (h : receiveWebglLog m cs st = some st') :
    ∃ args, m.arguments = some args ∧
      st' = (if (⟨m.name, args⟩ : CallRecord α) ∈ st.webglCalls then st
             else { st with webglCalls := st.webglCalls ++ [⟨m.name, args⟩] }) := by
  unfold receiveWebglLog at h
  cases harg : m.arguments with
  | none => rw [harg] at h; exact absurd h (by simp)
  | some args =>
    rw [harg] at h
    refine ⟨args, rfl, ?_⟩
    split at h <;> split <;> simp_all

/-- Successful runs of the misc handler build either the property-shaped or
the method-shaped record, then perform the dedup-append. -/
theorem receiveMiscLog_spec {m : Message α} {cs : List String}
    {st st' : FPState α} (h : receiveMiscLog m cs st = some st') :
    ∃ r : MiscRecord α,
      ((m.name ∈ checkedProperties ∧
          ∃ v, m.value = some v ∧ r = .propertyAccess m.name v) ∨
       (m.name ∉ checkedProperties ∧
          ∃ args, m.arguments = some args ∧ r = .methodCall m.name args)) ∧
      st' = (if r ∈ st.miscCalls then st
             else { st with miscCalls := st.miscCalls ++ [r] }) := by
  unfold receiveMiscLog at h
  by_cases hname : m.name ∈ checkedProperties
  · rw [if_pos hname] at h
    cases hv : m.value with
    | none => rw [hv] at h; exact absurd h (by simp)
    | some v =>
      rw [hv] at h
      refine ⟨.propertyAccess m.name v, Or.inl ⟨hname, v, rfl, rfl⟩, ?_⟩
      split at h <;> split <;> simp_all
  · rw [if_neg hname] at h
    cases harg : m.arguments with
    | none => rw [harg] at h; exact absurd h (by simp)
    | some args =>
      rw [harg] at h
      refine ⟨.methodCall m.name args, Or.inr ⟨hname, args, rfl, rfl⟩, ?_⟩
      split at h <;> split <;> simp_all

/-- Successful runs of the canvas handler append the record verbatim and, on
the export method, overwrite the stored call stack (first frame stripped)
and the image candidate. -/
theorem receiveCanvasLog_spec {m : Message α} {cs : List String}
    {st st' : FPState α} (h : receiveCanvasLog m cs st = some st') :
    ∃ args, m.arguments = some args ∧
      ((m.name ≠ exportMethod ∧
          st' = { st with canvasCalls := st.canvasCalls ++ [⟨m.name, args⟩] }) ∨
       (m.name = exportMethod ∧ ∃ r, m.retval = some r ∧
          st' = { st with canvasCalls := st.canvasCalls ++ [⟨m.name, args⟩],
                          canvasCallStack := some cs.tail,
                          canvasImage := some r })) := by
  cases harg : m.arguments with
  | none =>
    simp only [receiveCanvasLog, harg] at h
    exact absurd h (by simp)
  | some args =>
    refine ⟨args, rfl, ?_⟩
    simp only [receiveCanvasLog, harg] at h
    split at h
    case isTrue hname =>
      cases hr : m.retval with
      | none => rw [hr] at h; exact absurd h (by simp)
      | some r =>
        rw [hr] at h
        exact Or.inr ⟨hname, r, rfl, (Option.some_inj.mp h).symm⟩
    case isFalse hname =>
      exact Or.inl ⟨hname, (Option.some_inj.mp h).symm⟩

/-- Case analysis for one dispatch step: either the channel is one of the
four known ones and the matching handler ran, or the event was ignored. -/
theorem receive_log_spec {log_type : String} {m : Message α}
    {cs : List String} {st st' : FPState α}
    (h : receive_log log_type m cs st = some st') :
    (log_type = canvasChannel ∧ receiveCanvasLog m cs st = some st') ∨
    (log_type = audioChannel ∧ receiveAudioLog m cs st = some st') ∨
    (log_type = webglChannel ∧ receiveWebglLog m cs st = some st') ∨
    (log_type = miscChannel ∧ receiveMiscLog m cs st = some st') ∨
    (log_type ≠ canvasChannel ∧ log_type ≠ audioChannel ∧
     log_type ≠ webglChannel ∧ log_type ≠ miscChannel ∧ st' = st) := by
  by_cases h1 : log_type = canvasChannel
  · subst h1; rw [receive_log_canvas_eq] at h; exact Or.inl ⟨rfl, h⟩
  by_cases h2 : log_type = audioChannel
  · subst h2; rw [receive_log_audio_eq] at h; exact Or.inr (Or.inl ⟨rfl, h⟩)
  by_cases h3 : log_type = webglChannel
  · subst h3; rw [receive_log_webgl_eq] at h; exact Or.inr (Or.inr (Or.inl ⟨rfl, h⟩))
  by_cases h4 : log_type = miscChannel
  · subst h4; rw [receive_log_misc_eq] at h; exact Or.inr (Or.inr (Or.inr (Or.inl ⟨rfl, h⟩)))
  · rw [receive_log_other_eq log_type m cs st h1 h2 h3 h4] at h
    exact Or.inr (Or.inr (Or.inr (Or.inr ⟨h1, h2, h3, h4, (Option.some_inj.mp h).symm⟩)))

/-! ## Event-sequence helper lemmas -/

theorem receiveAll_cons_some {t : LogTriple α} {rest : List (LogTriple α)}
    {st st' : FPState α} (h : receiveAll (t :: rest) st = some st') :
    ∃ st1, receive_log t.channel t.message t.stack st = some st1 ∧
      receiveAll rest st1 = some st' := by
  unfold receiveAll at h
  cases hr : receive_log t.channel t.message t.stack st with
  | none => rw [hr] at h; exact absurd h (by simp)
  | some st1 => rw [hr] at h; exact ⟨st1, rfl, h⟩

theorem receiveAll_cons_eq (t : LogTriple α) (rest : List (LogTriple α))
    (st : FPState α) :
    receiveAll (t :: rest) st =
      match receive_log t.channel t.message t.stack st with
      | none => none
      | some st1 => receiveAll rest st1 := rfl

theorem receiveAll_append (xs ys : List (LogTriple α)) (st : FPState α) :
    receiveAll (xs ++ ys) st =
      match receiveAll xs st with
      | none => none
      | some st1 => receiveAll ys st1 := by
  induction xs generalizing st with
  | nil => rfl
  | cons t rest ih =>
    rw [List.cons_append, receiveAll_cons_eq, receiveAll_cons_eq]
    cases hr : receive_log t.channel t.message t.stack st with
    | none => rfl
    | some st1 => exact ih st1

/-- One dispatch step never touches the audio, webgl or misc call-stack
slots (their capture lines are commented out in the source). -/
theorem receive_log_hookStacks {log_type : String} {m : Message α}
    {cs : List String} {st st' : FPState α}
    (h : receive_log log_type m cs st = some st') :
    st'.audioCallStack = st.audioCallStack ∧
    st'.webglCallStack = st.webglCallStack ∧
    st'.miscCallStack = st.miscCallStack := by
  rcases receive_log_spec h with ⟨_, hc⟩ | ⟨_, ha⟩ | ⟨_, hw⟩ | ⟨_, hm⟩ | ⟨_, _, _, _, rfl⟩
  · rcases receiveCanvasLog_spec hc with ⟨args, _, ⟨_, rfl⟩ | ⟨_, r, _, rfl⟩⟩ <;>
      exact ⟨rfl, rfl, rfl⟩
  · obtain ⟨args, _, rfl⟩ := receiveAudioLog_spec ha
    split <;> exact ⟨rfl, rfl, rfl⟩
  · obtain ⟨args, _, rfl⟩ := receiveWebglLog_spec hw
    split <;> exact ⟨rfl, rfl, rfl⟩
  · obtain ⟨r, _, rfl⟩ := receiveMiscLog_spec hm
    split <;> exact ⟨rfl, rfl, rfl⟩
  · exact ⟨rfl, rfl, rfl⟩

/-- No sequence of delivered events ever sets the audio, webgl or misc
call-stack slots. -/
theorem receiveAll_hookStacks {events : List (LogTriple α)} {st st' : FPState α}
    (h : receiveAll events st = some st') :
    st'.audioCallStack = st.audioCallStack ∧
    st'.webglCallStack = st.webglCallStack ∧
    st'.miscCallStack = st.miscCallStack := by
  induction events generalizing st with
  | nil => cases Option.some_inj.mp h; exact ⟨rfl, rfl, rfl⟩
  | cons t rest ih =>
    obtain ⟨st1, h1, h2⟩ := receiveAll_cons_some h
    obtain ⟨a1, a2, a3⟩ := receive_log_hookStacks h1
    obtain ⟨b1, b2, b3⟩ := ih h2
    exact ⟨b1.trans a1, b2.trans a2, b3.trans a3⟩

/-- Effect of one dispatch step on the canvas calls list, phrased for an
arbitrary predicate on stored method names. -/
theorem receive_log_canvas_methods {log_type : String} {m : Message α}
    {cs : List String} {st st' : FPState α}
    (h : receive_log log_type m cs st = some st') (p : String → Prop) :
    ((∃ c ∈ st'.canvasCalls, p c.method) ↔
      (∃ c ∈ st.canvasCalls, p c.method) ∨
      (log_type = canvasChannel ∧ p m.name)) := by
  rcases receive_log_spec h with ⟨rfl, hc⟩ | ⟨rfl, ha⟩ | ⟨rfl, hw⟩ | ⟨rfl, hm⟩ |
    ⟨hne, _, _, _, rfl⟩
  · rcases receiveCanvasLog_spec hc with ⟨args, _, ⟨_, rfl⟩ | ⟨_, r, _, rfl⟩⟩ <;>
    · simp only [List.mem_append, List.mem_singleton]
      constructor
      · rintro ⟨c, hc' | rfl, hp⟩
        · exact Or.inl ⟨c, hc', hp⟩
        · exact Or.inr ⟨by trivial, hp⟩
      · rintro (⟨c, hc', hp⟩ | ⟨_, hp⟩)
        · exact ⟨c, Or.inl hc', hp⟩
        · exact ⟨⟨m.name, args⟩, Or.inr rfl, hp⟩
  · obtain ⟨args, _, rfl⟩ := receiveAudioLog_spec ha
    split <;> simp [audio_ne_canvas]
  · obtain ⟨args, _, rfl⟩ := receiveWebglLog_spec hw
    split <;> simp [webgl_ne_canvas]
  · obtain ⟨r, _, rfl⟩ := receiveMiscLog_spec hm
    split <;> simp [misc_ne_canvas]
  · simp [hne]

/-- Over a whole event sequence: a canvas record with a given method
property exists afterwards iff one existed before or a canvas-channel event
with that property on its name was delivered. -/
theorem receiveAll_canvas_methods {events : List (LogTriple α)}
    {st st' : FPState α} (h : receiveAll events st = some st')
    (p : String → Prop) :
    ((∃ c ∈ st'.canvasCalls, p c.method) ↔
      (∃ c ∈ st.canvasCalls, p c.method) ∨
      (∃ t ∈ events, t.channel = canvasChannel ∧ p t.message.name)) := by
  induction events generalizing st with
  | nil => cases Option.some_inj.mp h; simp
  | cons t rest ih =>
    obtain ⟨st1, h1, h2⟩ := receiveAll_cons_some h
    rw [ih h2, receive_log_canvas_methods h1 p]
    simp only [List.mem_cons]
    constructor
    · rintro ((hb | ⟨hch, hp⟩) | ⟨u, hu, hcu, hpu⟩)
      · exact Or.inl hb
      · exact Or.inr ⟨t, Or.inl rfl, hch, hp⟩
      · exact Or.inr ⟨u, Or.inr hu, hcu, hpu⟩
    · rintro (hb | ⟨u, rfl | hu, hcu, hpu⟩)
      · exact Or.inl (Or.inl hb)
      · exact Or.inl (Or.inr ⟨hcu, hpu⟩)
      · exact Or.inr ⟨u, hu, hcu, hpu⟩

/-- Effect of one dispatch step on the stored canvas call stack. -/
theorem receive_log_canvasStack {log_type : String} {m : Message α}
    {cs : List String} {st st' : FPState α}
    (h : receive_log log_type m cs st = some st') :
    st'.canvasCallStack =
      (if log_type = canvasChannel ∧ m.name = exportMethod then some cs.tail
       else st.canvasCallStack) := by
  rcases receive_log_spec h with ⟨rfl, hc⟩ | ⟨rfl, ha⟩ | ⟨rfl, hw⟩ | ⟨rfl, hm⟩ |
    ⟨hne, _, _, _, rfl⟩
  · rcases receiveCanvasLog_spec hc with ⟨args, _, ⟨hname, rfl⟩ | ⟨hname, r, _, rfl⟩⟩
    · have hcond : ¬(canvasChannel = canvasChannel ∧ m.name = exportMethod) :=
        fun hx => hname hx.2
      rw [if_neg hcond]
    · rw [if_pos ⟨rfl, hname⟩]
  · obtain ⟨args, _, rfl⟩ := receiveAudioLog_spec ha
    have hcond : ¬(audioChannel = canvasChannel ∧ m.name = exportMethod) :=
      fun hx => audio_ne_canvas hx.1
    rw [if_neg hcond]
    split <;> rfl
  · obtain ⟨args, _, rfl⟩ := receiveWebglLog_spec hw
    have hcond : ¬(webglChannel = canvasChannel ∧ m.name = exportMethod) :=
      fun hx => webgl_ne_canvas hx.1
    rw [if_neg hcond]
    split <;> rfl
  · obtain ⟨r, _, rfl⟩ := receiveMiscLog_spec hm
    have hcond : ¬(miscChannel = canvasChannel ∧ m.name = exportMethod) :=
      fun hx => misc_ne_canvas hx.1
    rw [if_neg hcond]
    split <;> rfl
  · have hcond : ¬(log_type = canvasChannel ∧ m.name = exportMethod) :=
      fun hx => hne hx.1
    rw [if_neg hcond]

/-- Over a whole event sequence: the canvas call stack is set iff it was
set before or some canvas export event was delivered. -/
theorem receiveAll_canvasStack_isSome {events : List (LogTriple α)}
    {st st' : FPState α} (h : receiveAll events st = some st') :
    (st'.canvasCallStack.isSome = true ↔
      st.canvasCallStack.isSome = true ∨
      ∃ t ∈ events, t.channel = canvasChannel ∧ t.message.name = exportMethod) := by
  induction events generalizing st with
  | nil => cases Option.some_inj.mp h; simp
  | cons t rest ih =>
    obtain ⟨st1, h1, h2⟩ := receiveAll_cons_some h
    rw [ih h2, receive_log_canvasStack h1]
    simp only [List.mem_cons]
    by_cases hx : t.channel = canvasChannel ∧ t.message.name = exportMethod
    · rw [if_pos hx]
      simp only [Option.isSome_some]
      constructor
      · intro _
        exact Or.inr ⟨t, Or.inl rfl, hx⟩
      · intro _
        exact Or.inl (by trivial)
    · rw [if_neg hx]
      constructor
      · rintro (hb | ⟨u, hu, hcu⟩)
        · exact Or.inl hb
        · exact Or.inr ⟨u, Or.inr hu, hcu⟩
      · rintro (hb | ⟨u, rfl | hu, hcu⟩)
        · exact Or.inl hb
        · exact absurd hcu hx
        · exact Or.inr ⟨u, hu, hcu⟩

/-- A step that is not a canvas export event preserves both the canvas
image candidate and the stored canvas call stack. -/
theorem receive_log_export_preserve {log_type : String} {m : Message α}
    {cs : List String} {st st' : FPState α}
    (h : receive_log log_type m cs st = some st')
    (hno : ¬(log_type = canvasChannel ∧ m.name = exportMethod)) :
    st'.canvasImage = st.canvasImage ∧
    st'.canvasCallStack = st.canvasCallStack := by
  rcases receive_log_spec h with ⟨rfl, hc⟩ | ⟨rfl, ha⟩ | ⟨rfl, hw⟩ | ⟨rfl, hm⟩ |
    ⟨hne, _, _, _, rfl⟩
  · rcases receiveCanvasLog_spec hc with ⟨args, _, ⟨hname, rfl⟩ | ⟨hname, r, _, rfl⟩⟩
    · exact ⟨rfl, rfl⟩
    · exact absurd ⟨rfl, hname⟩ hno
  · obtain ⟨args, _, rfl⟩ := receiveAudioLog_spec ha
    split <;> exact ⟨rfl, rfl⟩
  · obtain ⟨args, _, rfl⟩ := receiveWebglLog_spec hw
    split <;> exact ⟨rfl, rfl⟩
  · obtain ⟨r, _, rfl⟩ := receiveMiscLog_spec hm
    split <;> exact ⟨rfl, rfl⟩
  · exact ⟨rfl, rfl⟩

/-- A sequence with no canvas export event preserves the canvas image
candidate and the stored canvas call stack. -/
theorem receiveAll_export_preserve {events : List (LogTriple α)}
    {st st' : FPState α} (h : receiveAll events st = some st')
    (hno : ∀ t ∈ events, ¬(t.channel = canvasChannel ∧ t.message.name = exportMethod)) :
    st'.canvasImage = st.canvasImage ∧
    st'.canvasCallStack = st.canvasCallStack := by
  induction events generalizing st with
  | nil => cases Option.some_inj.mp h; exact ⟨rfl, rfl⟩
  | cons t rest ih =>
    obtain ⟨st1, h1, h2⟩ := receiveAll_cons_some h
    obtain ⟨a1, a2⟩ := receive_log_export_preserve h1 (hno t (List.mem_cons_self t rest))
    obtain ⟨b1, b2⟩ := ih h2 (fun u hu => hno u (List.mem_cons_of_mem t hu))
    exact ⟨b1.trans a1, b2.trans a2⟩

/-- A canvas export step stores the return value of the message as the image
candidate and the call stack minus its first frame. -/
theorem receive_log_export_sets {m : Message α} {cs : List String}
    {st st' : FPState α} (hname : m.name = exportMethod)
    (h : receive_log canvasChannel m cs st = some st') :
    st'.canvasImage = m.retval ∧ st'.canvasCallStack = some cs.tail := by
  rw [receive_log_canvas_eq] at h
  rcases receiveCanvasLog_spec h with ⟨args, _, ⟨hname', _⟩ | ⟨_, r, hr, rfl⟩⟩
  · exact absurd hname hname'
  · exact ⟨hr.symm, rfl⟩

/-! ## Finalization helper lemmas -/

theorem usesText_iff (calls : List (CallRecord α)) :
    usesText calls = true ↔ ∃ c ∈ calls, c.method ∈ text_methods := by
  unfold usesText
  rw [List.any_eq_true]
  constructor
  · rintro ⟨c, hc, hp⟩
    exact ⟨c, hc, by simpa using hp⟩
  · rintro ⟨c, hc, hp⟩
    exact ⟨c, hc, by simpa using hp⟩

/-- The finalized `is_fingerprinting` flag of the canvas category equals the
conjunctive decision computed from the state. -/
theorem extract_canvas_fp {st : FPState α} {res : ScanResult α}
    (h : extract_information st = some res) :
    res.canvas.is_fingerprinting =
      (usesText st.canvasCalls && st.canvasCallStack.isSome) := by
  unfold extract_information at h
  split at h
  case isTrue hc =>
    cases himg : st.canvasImage with
    | none => rw [himg] at h; exact absurd h (by simp)
    | some img =>
      rw [himg] at h
      cases Option.some_inj.mp h
      exact hc.symm
  case isFalse hc =>
    cases Option.some_inj.mp h
    simp only [Bool.not_eq_true] at hc
    exact hc.symm

/-- The finalized audio, webgl and misc categories are exactly the
`finalizeHookCategory` of the corresponding state fields. -/
theorem extract_hooks {st : FPState α} {res : ScanResult α}
    (h : extract_information st = some res) :
    res.audio = finalizeHookCategory st.audioCalls st.audioCallStack ∧
    res.webgl = finalizeHookCategory st.webglCalls st.webglCallStack ∧
    res.misc = finalizeHookCategory st.miscCalls st.miscCallStack := by
  unfold extract_information at h
  split at h
  case isTrue hc =>
    cases himg : st.canvasImage with
    | none => rw [himg] at h; exact absurd h (by simp)
    | some img =>
      rw [himg] at h
      cases Option.some_inj.mp h
      exact ⟨rfl, rfl, rfl⟩
  case isFalse hc =>
    cases Option.some_inj.mp h
    exact ⟨rfl, rfl, rfl⟩

/-- On a positive canvas decision, finalization succeeds and produces the
result record computed from the decoded data URL. -/
theorem extract_positive {st : FPState α} {img : String}
    (hu : usesText st.canvasCalls = true)
    (hs : st.canvasCallStack.isSome = true)
    (himg : st.canvasImage = some img) :
    extract_information st =
      some { canvas := ⟨st.canvasCalls, true, st.canvasCallStack⟩,
             audio := finalizeHookCategory st.audioCalls st.audioCallStack,
             webgl := finalizeHookCategory st.webglCalls st.webglCallStack,
             misc := finalizeHookCategory st.miscCalls st.miscCallStack,
             fingerprinting_canvas :=
               match dataUrlContent img with
               | some bs => if bs = [] then none else some bs
               | none => none } := by
  unfold extract_information
  rw [if_pos (show (usesText st.canvasCalls && st.canvasCallStack.isSome) = true
        by rw [hu, hs]; rfl)]
  rw [himg]

/-! ## Claim theorems -/

/-- C1: instrumentation transparency for functions fails in the code.  The
wrapper built by `instrumentFunction` invokes the original function with
the original receiver and arguments and logs the original return value,
but its body has no return statement: the wrapped call itself evaluates to
JavaScript `undefined` (modelled by `none`) instead of the original return
value (`some 5`), so the return value of the wrapper differs from that of
the original function. -/
theorem instrumentFunction_drops_retval :
    origFunc (some 0) [some 1, some 2] = some 5 ∧
    (instrumentFunction none origFunc "HTMLCanvasElement.toDataURL"
        canvasChannel (some 0) [some 1, some 2]).2 =
      { logType := canvasChannel, name := "HTMLCanvasElement.toDataURL",
        arguments := [some 1, some 2], retval := some 5 } ∧
    (instrumentFunction none origFunc "HTMLCanvasElement.toDataURL"
        canvasChannel (some 0) [some 1, some 2]).1 = none ∧
    (instrumentFunction none origFunc "HTMLCanvasElement.toDataURL"
        canvasChannel (some 0) [some 1, some 2]).1 ≠
      origFunc (some 0) [some 1, some 2] :=
  ⟨rfl, rfl, rfl, by decide⟩

/-- C9: dispatcher routing.  On each of the four fixed channel names,
`receive_log` behaves exactly as the corresponding category handler, and on
any other channel name it raises nothing and changes no category state. -/
theorem dispatcher_routing (log_type : String) (m : Message α)
    (cs : List String) (st : FPState α)
    (hun : log_type ∉ [canvasChannel, audioChannel, webglChannel, miscChannel]) :
    receive_log canvasChannel m cs st = receiveCanvasLog m cs st ∧
    receive_log audioChannel m cs st = receiveAudioLog m cs st ∧
    receive_log webglChannel m cs st = receiveWebglLog m cs st ∧
    receive_log miscChannel m cs st = receiveMiscLog m cs st ∧
    receive_log log_type m cs st = some st := by
  have h1 : log_type ≠ canvasChannel := fun he => hun (by rw [he]; simp)
  have h2 : log_type ≠ audioChannel := fun he => hun (by rw [he]; simp)
  have h3 : log_type ≠ webglChannel := fun he => hun (by rw [he]; simp)
  have h4 : log_type ≠ miscChannel := fun he => hun (by rw [he]; simp)
  exact ⟨receive_log_canvas_eq m cs st, receive_log_audio_eq m cs st,
    receive_log_webgl_eq m cs st, receive_log_misc_eq m cs st,
    receive_log_other_eq log_type m cs st h1 h2 h3 h4⟩

theorem dispatcher_routing_witness :
    receive_log canvasChannel (⟨"x", some [], none, none⟩ : Message Nat) []
        (initState Nat) =
      receiveCanvasLog ⟨"x", some [], none, none⟩ [] (initState Nat) ∧
    receive_log audioChannel (⟨"x", some [], none, none⟩ : Message Nat) []
        (initState Nat) =
      receiveAudioLog ⟨"x", some [], none, none⟩ [] (initState Nat) ∧
    receive_log webglChannel (⟨"x", some [], none, none⟩ : Message Nat) []
        (initState Nat) =
      receiveWebglLog ⟨"x", some [], none, none⟩ [] (initState Nat) ∧
    receive_log miscChannel (⟨"x", some [], none, none⟩ : Message Nat) []
        (initState Nat) =
      receiveMiscLog ⟨"x", some [], none, none⟩ [] (initState Nat) ∧
    receive_log "other:channel" (⟨"x", some [], none, none⟩ : Message Nat) []
        (initState Nat) = some (initState Nat) :=
  dispatcher_routing "other:channel" ⟨"x", some [], none, none⟩ []
    (initState Nat) (by decide)

/-- C5: baseline never-fingerprinting for audio, webgl and misc.  For every
delivered event sequence, finalization leaves `is_fingerprinting = false`
and no `call_stack` on these three categories, because their call-stack
capture lines are commented out. -/
theorem never_fp_audio_webgl_misc (events : List (LogTriple α))
    (st : FPState α) (res : ScanResult α)
    (h1 : receiveAll events (initState α) = some st)
    (h2 : extract_information st = some res) :
    res.audio.is_fingerprinting = false ∧ res.audio.call_stack = none ∧
    res.webgl.is_fingerprinting = false ∧ res.webgl.call_stack = none ∧
    res.misc.is_fingerprinting = false ∧ res.misc.call_stack = none := by
  obtain ⟨ha, hw, hm⟩ := receiveAll_hookStacks h1
  obtain ⟨ra, rb, rc⟩ := extract_hooks h2
  rw [ra, rb, rc, ha, hw, hm]
  exact ⟨rfl, rfl, rfl, rfl, rfl, rfl⟩

theorem never_fp_audio_webgl_misc_witness :
    exAudioResult.audio.is_fingerprinting = false ∧
    exAudioResult.audio.call_stack = none ∧
    exAudioResult.webgl.is_fingerprinting = false ∧
    exAudioResult.webgl.call_stack = none ∧
    exAudioResult.misc.is_fingerprinting = false ∧
    exAudioResult.misc.call_stack = none :=
  never_fp_audio_webgl_misc [exAudioTriple] exAudioState exAudioResult
    (by decide) (by decide)

/-- C2: conjunctive canvas rule.  After delivering any event sequence and
finalizing, the canvas category is marked fingerprinting iff a canvas event
with a text-drawing method was delivered and a canvas export event (which
is what captures the export call stack) was delivered. -/
theorem canvas_conjunctive_rule (events : List (LogTriple α))
    (st : FPState α) (res : ScanResult α)
    (h1 : receiveAll events (initState α) = some st)
    (h2 : extract_information st = some res) :
    (res.canvas.is_fingerprinting = true ↔
      ((∃ t ∈ events, t.channel = canvasChannel ∧ t.message.name ∈ text_methods) ∧
       (∃ t ∈ events, t.channel = canvasChannel ∧ t.message.name = exportMethod))) := by
  rw [extract_canvas_fp h2, Bool.and_eq_true, usesText_iff,
    receiveAll_canvas_methods h1 (fun s => s ∈ text_methods),
    receiveAll_canvasStack_isSome h1]
  simp [initState]

theorem canvas_conjunctive_rule_witness :
    (exCanvasResult.canvas.is_fingerprinting = true ↔
      ((∃ t ∈ [exFillTriple, exExportTriple],
          t.channel = canvasChannel ∧ t.message.name ∈ text_methods) ∧
       (∃ t ∈ [exFillTriple, exExportTriple],
          t.channel = canvasChannel ∧ t.message.name = exportMethod))) :=
  canvas_conjunctive_rule [exFillTriple, exExportTriple] exCanvasState
    exCanvasResult (by decide) (by decide)

/-- C7: canvas order preservation.  Delivering any sequence of canvas
events appends one `{method, arguments}` record per event to the canvas
calls list, in delivery order, never deduplicating. -/
theorem canvas_order_preservation (ms : List (Message α × List String))
    (st st' : FPState α)
    (h : receiveAll (ms.map fun p => ⟨canvasChannel, p.1, p.2⟩) st = some st') :
    st'.canvasCalls = st.canvasCalls ++
      ms.map (fun p => ⟨p.1.name, p.1.arguments.getD []⟩) := by
  induction ms generalizing st with
  | nil => cases Option.some_inj.mp h; simp
  | cons p rest ih =>
    rw [List.map_cons] at h
    obtain ⟨st1, h1, h2⟩ := receiveAll_cons_some h
    have h1' : receive_log canvasChannel p.1 p.2 st = some st1 := h1
    rw [receive_log_canvas_eq] at h1'
    obtain ⟨args, harg, hshape⟩ := receiveCanvasLog_spec h1'
    have hcalls : st1.canvasCalls = st.canvasCalls ++ [⟨p.1.name, args⟩] := by
      rcases hshape with ⟨_, rfl⟩ | ⟨_, r, _, rfl⟩ <;> rfl
    rw [ih st1 h2, hcalls]
    simp [harg]

theorem canvas_order_preservation_witness :
    exThreeState.canvasCalls = (initState Nat).canvasCalls ++
      ([(exFillTriple.message, exFillTriple.stack),
        (exExportTriple.message, exExportTriple.stack),
        (exFillTriple.message, exFillTriple.stack)].map
        (fun p => ⟨p.1.name, p.1.arguments.getD []⟩)) :=
  canvas_order_preservation
    [(exFillTriple.message, exFillTriple.stack),
     (exExportTriple.message, exExportTriple.stack),
     (exFillTriple.message, exFillTriple.stack)]
    (initState Nat) exThreeState (by decide)

/-- C8: most-recent export wins with the first frame stripped.  Each canvas
export step overwrites the image candidate with the event's return value
and the stored stack with the received stack minus its first frame; after
any sequence whose last canvas export event is the given one, the state
holds exactly that event's data. -/
theorem last_export_wins (pre post : List (LogTriple α)) (m : Message α)
    (cs : List String) (st st' : FPState α)
    (hname : m.name = exportMethod)
    (hpost : ∀ t ∈ post, ¬(t.channel = canvasChannel ∧ t.message.name = exportMethod))
    (h : receiveAll (pre ++ ⟨canvasChannel, m, cs⟩ :: post) st = some st') :
    (st'.canvasImage = m.retval ∧ st'.canvasCallStack = some cs.tail) ∧
    (∀ (m' : Message α) (cs' : List String) (s s' : FPState α),
        m'.name = exportMethod → receive_log canvasChannel m' cs' s = some s' →
        s'.canvasImage = m'.retval ∧ s'.canvasCallStack = some cs'.tail) := by
  refine ⟨?_, fun m' cs' s s' hn hr => receive_log_export_sets hn hr⟩
  rw [receiveAll_append] at h
  cases hpre : receiveAll pre st with
  | none => rw [hpre] at h; exact absurd h (by simp)
  | some st1 =>
    rw [hpre] at h
    obtain ⟨st2, h1, h2⟩ := receiveAll_cons_some h
    have h1' : receive_log canvasChannel m cs st1 = some st2 := h1
    obtain ⟨i1, i2⟩ := receive_log_export_sets hname h1'
    obtain ⟨p1, p2⟩ := receiveAll_export_preserve h2 hpost
    exact ⟨p1.trans i1, p2.trans i2⟩

theorem last_export_wins_witness :
    exThreeState.canvasImage = exExportTriple.message.retval ∧
    exThreeState.canvasCallStack = some exExportTriple.stack.tail :=
  (last_export_wins [exFillTriple] [exFillTriple] exExportTriple.message
    exExportTriple.stack (initState Nat) exThreeState
    (by decide) (by decide) (by decide)).1

/-- C4: misc shape handling.  A misc message with one of the four tracked
accessor names is stored as a `{property, value}` record; any other misc
message carrying an `arguments` key is stored as a `{method, arguments}`
record (both subject to the dedup-append); a misc message matching neither
shape (including a tracked name without a `value` key) makes the handler
raise instead of storing anything. -/
theorem misc_shape_handling (m : Message α) (cs : List String)
    (st : FPState α) :
    (∀ v, m.name ∈ checkedProperties → m.value = some v →
      receiveMiscLog m cs st =
        some (if MiscRecord.propertyAccess m.name v ∈ st.miscCalls then st
              else { st with miscCalls :=
                st.miscCalls ++ [MiscRecord.propertyAccess m.name v] })) ∧
    (∀ args, m.name ∉ checkedProperties → m.arguments = some args →
      receiveMiscLog m cs st =
        some (if MiscRecord.methodCall m.name args ∈ st.miscCalls then st
              else { st with miscCalls :=
                st.miscCalls ++ [MiscRecord.methodCall m.name args] })) ∧
    (m.name ∉ checkedProperties → m.arguments = none →
      receiveMiscLog m cs st = none) ∧
    (m.name ∈ checkedProperties → m.value = none →
      receiveMiscLog m cs st = none) := by
  refine ⟨?_, ?_, ?_, ?_⟩
  · intro v hname hv
    unfold receiveMiscLog
    rw [if_pos hname, hv, apply_ite Option.some]
  · intro args hname harg
    unfold receiveMiscLog
    rw [if_neg hname, harg, apply_ite Option.some]
  · intro hname harg
    unfold receiveMiscLog
    rw [if_neg hname, harg]
  · intro hname hv
    unfold receiveMiscLog
    rw [if_pos hname, hv]

theorem misc_shape_handling_witness :
    receiveMiscLog (⟨"userAgent", none, some 42, none⟩ : Message Nat) []
        (initState Nat) =
      some { initState Nat with
             miscCalls := [MiscRecord.propertyAccess "userAgent" 42] } ∧
    receiveMiscLog (⟨"localStorage.setItem", some [1, 2], none, none⟩ : Message Nat)
        [] (initState Nat) =
      some { initState Nat with
             miscCalls := [MiscRecord.methodCall "localStorage.setItem" [1, 2]] } ∧
    receiveMiscLog (⟨"mystery", none, some 3, none⟩ : Message Nat) []
        (initState Nat) = none ∧
    receiveMiscLog (⟨"userAgent", some [1], none, none⟩ : Message Nat) []
        (initState Nat) = none := by
  refine ⟨?_, ?_, ?_, ?_⟩
  · exact ((misc_shape_handling (⟨"userAgent", none, some 42, none⟩ : Message Nat)
      [] (initState Nat)).1 42 (by decide) rfl).trans (by decide)
  · exact ((misc_shape_handling
      (⟨"localStorage.setItem", some [1, 2], none, none⟩ : Message Nat)
      [] (initState Nat)).2.1 [1, 2] (by decide) rfl).trans (by decide)
  · exact (misc_shape_handling (⟨"mystery", none, some 3, none⟩ : Message Nat)
      [] (initState Nat)).2.2.1 (by decide) rfl
  · exact (misc_shape_handling (⟨"userAgent", some [1], none, none⟩ : Message Nat)
      [] (initState Nat)).2.2.2 (by decide) rfl

/-! ## Replication helpers for the dedup claim -/

theorem receiveAll_cons_of (t : LogTriple α) {rest : List (LogTriple α)}
    {st st1 : FPState α} {o : Option (FPState α)}
    (h1 : receive_log t.channel t.message t.stack st = some st1)
    (h2 : receiveAll rest st1 = o) :
    receiveAll (t :: rest) st = o := by
  rw [receiveAll_cons_eq, h1]
  exact h2

theorem receiveAll_replicate_fix (t : LogTriple α) (st : FPState α)
    (habs : receive_log t.channel t.message t.stack st = some st) (n : Nat) :
    receiveAll (List.replicate n t) st = some st := by
  induction n with
  | zero => rfl
  | succ k ih => exact List.replicate_succ t k ▸ receiveAll_cons_of t habs ih

theorem replicate_once_then_fix (t : LogTriple α) (S1 : FPState α)
    (h1 : receive_log t.channel t.message t.stack (initState α) = some S1)
    (habs : receive_log t.channel t.message t.stack S1 = some S1)
    {N : Nat} (hN : 1 ≤ N) :
    receiveAll (List.replicate N t) (initState α) = some S1 := by
  obtain ⟨n, rfl⟩ := Nat.exists_eq_add_of_le hN
  rw [Nat.add_comm 1 n, List.replicate_succ]
  exact receiveAll_cons_of t h1 (receiveAll_replicate_fix t S1 habs n)

/-- C6: dedup idempotence for audio, webgl and misc.  Delivering the same
`(method, arguments)` message `N ≥ 1` times from the initial state leaves
exactly one record; delivering two messages with the same method but
different argument lists leaves two records; and in general a record is
appended only when no structurally equal record is already stored. -/
theorem dedup_idempotence (nm : String) (a1 a2 : List α) (N : Nat)
    (hN : 1 ≤ N) (hne : a1 ≠ a2) (hnm : nm ∉ checkedProperties) :
    ((receiveAll (List.replicate N
        (⟨audioChannel, ⟨nm, some a1, none, none⟩, []⟩ : LogTriple α))
        (initState α)).map FPState.audioCalls = some [⟨nm, a1⟩]) ∧
    ((receiveAll (List.replicate N
        (⟨webglChannel, ⟨nm, some a1, none, none⟩, []⟩ : LogTriple α))
        (initState α)).map FPState.webglCalls = some [⟨nm, a1⟩]) ∧
    ((receiveAll (List.replicate N
        (⟨miscChannel, ⟨nm, some a1, none, none⟩, []⟩ : LogTriple α))
        (initState α)).map FPState.miscCalls =
      some [MiscRecord.methodCall nm a1]) ∧
    ((receiveAll [⟨audioChannel, ⟨nm, some a1, none, none⟩, []⟩,
        ⟨audioChannel, ⟨nm, some a2, none, none⟩, []⟩]
        (initState α)).map FPState.audioCalls = some [⟨nm, a1⟩, ⟨nm, a2⟩]) ∧
    ((receiveAll [⟨webglChannel, ⟨nm, some a1, none, none⟩, []⟩,
        ⟨webglChannel, ⟨nm, some a2, none, none⟩, []⟩]
        (initState α)).map FPState.webglCalls = some [⟨nm, a1⟩, ⟨nm, a2⟩]) ∧
    ((receiveAll [⟨miscChannel, ⟨nm, some a1, none, none⟩, []⟩,
        ⟨miscChannel, ⟨nm, some a2, none, none⟩, []⟩]
        (initState α)).map FPState.miscCalls =
      some [MiscRecord.methodCall nm a1, MiscRecord.methodCall nm a2]) ∧
    (∀ (m : Message α) (cs : List String) (s s' : FPState α) (args : List α),
      m.arguments = some args → receiveAudioLog m cs s = some s' →
      s'.audioCalls =
        (if (⟨m.name, args⟩ : CallRecord α) ∈ s.audioCalls then s.audioCalls
         else s.audioCalls ++ [⟨m.name, args⟩])) ∧
    (∀ (m : Message α) (cs : List String) (s s' : FPState α) (args : List α),
      m.arguments = some args → receiveWebglLog m cs s = some s' →
      s'.webglCalls =
        (if (⟨m.name, args⟩ : CallRecord α) ∈ s.webglCalls then s.webglCalls
         else s.webglCalls ++ [⟨m.name, args⟩])) ∧
    (∀ (m : Message α) (cs : List String) (s s' : FPState α) (args : List α),
      m.name ∉ checkedProperties →
      m.arguments = some args → receiveMiscLog m cs s = some s' →
      s'.miscCalls =
        (if MiscRecord.methodCall m.name args ∈ s.miscCalls then s.miscCalls
         else s.miscCalls ++ [MiscRecord.methodCall m.name args])) := by
  have hne2 : (⟨nm, a2⟩ : CallRecord α) ≠ ⟨nm, a1⟩ :=
    fun hcon => hne (congrArg CallRecord.arguments hcon).symm
  have hne2m : MiscRecord.methodCall nm a2 ≠ MiscRecord.methodCall nm a1 := by
    intro hcon
    cases hcon
    exact hne rfl
  have sA1 : receive_log audioChannel (⟨nm, some a1, none, none⟩ : Message α) []
      (initState α) = some { initState α with audioCalls := [⟨nm, a1⟩] } := by
    rw [receive_log_audio_eq]
    simp [receiveAudioLog, initState]
  have sA2 : receive_log audioChannel (⟨nm, some a1, none, none⟩ : Message α) []
      { initState α with audioCalls := [⟨nm, a1⟩] } =
      some { initState α with audioCalls := [⟨nm, a1⟩] } := by
    rw [receive_log_audio_eq]
    simp [receiveAudioLog]
  have sA3 : receive_log audioChannel (⟨nm, some a2, none, none⟩ : Message α) []
      { initState α with audioCalls := [⟨nm, a1⟩] } =
      some { initState α with audioCalls := [⟨nm, a1⟩, ⟨nm, a2⟩] } := by
    rw [receive_log_audio_eq]
    simp [receiveAudioLog, hne2]
  have sW1 : receive_log webglChannel (⟨nm, some a1, none, none⟩ : Message α) []
      (initState α) = some { initState α with webglCalls := [⟨nm, a1⟩] } := by
    rw [receive_log_webgl_eq]
    simp [receiveWebglLog, initState]
  have sW2 : receive_log webglChannel (⟨nm, some a1, none, none⟩ : Message α) []
      { initState α with webglCalls := [⟨nm, a1⟩] } =
      some { initState α with webglCalls := [⟨nm, a1⟩] } := by
    rw [receive_log_webgl_eq]
    simp [receiveWebglLog]
  have sW3 : receive_log webglChannel (⟨nm, some a2, none, none⟩ : Message α) []
      { initState α with webglCalls := [⟨nm, a1⟩] } =
      some { initState α with webglCalls := [⟨nm, a1⟩, ⟨nm, a2⟩] } := by
    rw [receive_log_webgl_eq]
    simp [receiveWebglLog, hne2]
  have sM1 : receive_log miscChannel (⟨nm, some a1, none, none⟩ : Message α) []
      (initState α) =
      some { initState α with miscCalls := [MiscRecord.methodCall nm a1] } := by
    rw [receive_log_misc_eq]
    simp [receiveMiscLog, hnm, initState]
  have sM2 : receive_log miscChannel (⟨nm, some a1, none, none⟩ : Message α) []
      { initState α with miscCalls := [MiscRecord.methodCall nm a1] } =
      some { initState α with miscCalls := [MiscRecord.methodCall nm a1] } := by
    rw [receive_log_misc_eq]
    simp [receiveMiscLog, hnm]
  have sM3 : receive_log miscChannel (⟨nm, some a2, none, none⟩ : Message α) []
      { initState α with miscCalls := [MiscRecord.methodCall nm a1] } =
      some { initState α with miscCalls :=
        [MiscRecord.methodCall nm a1, MiscRecord.methodCall nm a2] } := by
    rw [receive_log_misc_eq]
    simp [receiveMiscLog, hnm, hne2m]
  refine ⟨?_, ?_, ?_, ?_, ?_, ?_, ?_, ?_, ?_⟩
  · rw [replicate_once_then_fix _ _ sA1 sA2 hN]; rfl
  · rw [replicate_once_then_fix _ _ sW1 sW2 hN]; rfl
  · rw [replicate_once_then_fix _ _ sM1 sM2 hN]; rfl
  · rw [receiveAll_cons_of _ sA1 (receiveAll_cons_of _ sA3 rfl)]; rfl
  · rw [receiveAll_cons_of _ sW1 (receiveAll_cons_of _ sW3 rfl)]; rfl
  · rw [receiveAll_cons_of _ sM1 (receiveAll_cons_of _ sM3 rfl)]; rfl
  · intro m cs s s' args harg hrun
    obtain ⟨args2, harg2, rfl⟩ := receiveAudioLog_spec hrun
    obtain rfl : args = args2 := by
      rw [harg] at harg2
      exact Option.some_inj.mp harg2
    by_cases hmem : (⟨m.name, args⟩ : CallRecord α) ∈ s.audioCalls
    · rw [if_pos hmem, if_pos hmem]
    · rw [if_neg hmem, if_neg hmem]
  · intro m cs s s' args harg hrun
    obtain ⟨args2, harg2, rfl⟩ := receiveWebglLog_spec hrun
    obtain rfl : args = args2 := by
      rw [harg] at harg2
      exact Option.some_inj.mp harg2
    by_cases hmem : (⟨m.name, args⟩ : CallRecord α) ∈ s.webglCalls
    · rw [if_pos hmem, if_pos hmem]
    · rw [if_neg hmem, if_neg hmem]
  · intro m cs s s' args hnm' harg hrun
    obtain ⟨r, hshape, rfl⟩ := receiveMiscLog_spec hrun
    obtain rfl : r = MiscRecord.methodCall m.name args := by
      rcases hshape with ⟨hin, _⟩ | ⟨_, args2, harg2, rfl⟩
      · exact absurd hin hnm'
      · rw [harg] at harg2
        rw [Option.some_inj.mp harg2]
    by_cases hmem : MiscRecord.methodCall m.name args ∈ s.miscCalls
    · rw [if_pos hmem, if_pos hmem]
    · rw [if_neg hmem, if_neg hmem]

theorem dedup_idempotence_witness :
    ((receiveAll (List.replicate 3
        (⟨audioChannel, ⟨"m", some [1], none, none⟩, []⟩ : LogTriple Nat))
        (initState Nat)).map FPState.audioCalls = some [⟨"m", [1]⟩]) ∧
    ((receiveAll [⟨audioChannel, ⟨"m", some [1], none, none⟩, []⟩,
        ⟨audioChannel, ⟨"m", some [2], none, none⟩, []⟩]
        (initState Nat)).map FPState.audioCalls =
      some [⟨"m", [1]⟩, ⟨"m", [2]⟩]) ∧
    ((receiveAll (List.replicate 3
        (⟨miscChannel, ⟨"m", some [1], none, none⟩, []⟩ : LogTriple Nat))
        (initState Nat)).map FPState.miscCalls =
      some [MiscRecord.methodCall "m" [1]]) := by
  have h := dedup_idempotence (α := Nat) "m" [1] [2] 3
    (by decide) (by decide) (by decide)
  exact ⟨h.1, h.2.2.2.1, h.2.2.1⟩

/-- Evaluation of the `try`-block when the split succeeds. -/
theorem dataUrlContent_split (img : String) {info payload : List Char}
    (hsp : splitFirst ',' img.toList = some (info, payload)) :
    dataUrlContent img =
      (if containsSubstring "base64".toList info = true then b64decode payload
       else none) := by
  unfold dataUrlContent
  rw [hsp]

/-- Evaluation of the `try`-block when there is no comma. -/
theorem dataUrlContent_noComma (img : String)
    (hsp : splitFirst ',' img.toList = none) :
    dataUrlContent img = none := by
  unfold dataUrlContent
  rw [hsp]

/-- C3 counterexample: with the image candidate `data:image/png;base64,`
(comma present, header contains `base64`, payload empty, decoding to the
empty byte string), finalization marks canvas fingerprinting but persists
no artifact, contradicting the claim that an artifact with the decoded
bytes is persisted whenever the comma and the base64 marker are present. -/
theorem canvas_evidence_empty_payload_cex :
    splitFirst ',' "data:image/png;base64,".toList =
      some ("data:image/png;base64".toList, []) ∧
    containsSubstring "base64".toList "data:image/png;base64".toList = true ∧
    b64decode [] = some [] ∧
    (extract_information stEmptyPayload).map
        (fun r => (r.canvas.is_fingerprinting, r.fingerprinting_canvas)) =
      some (true, none) ∧
    (extract_information stEmptyPayload).map
        (fun r => r.fingerprinting_canvas) ≠ some (some []) := by
  decide

/-- C3 (amended): on a positive canvas decision, if the most recent export
candidate contains a comma, the header before it contains `base64`, and the
payload after it decodes (Python non-strict base64) to a non-empty byte
string, an artifact with exactly those bytes is persisted; if the string
has no comma, or the header lacks the marker, or the decode raises, or (as
the counterexample forces) the decoded payload is empty, no artifact is
produced, no error is raised, and `is_fingerprinting` remains true. -/
theorem canvas_evidence_decoding_amended (st : FPState α) (img : String)
    (hu : usesText st.canvasCalls = true)
    (hs : st.canvasCallStack.isSome = true)
    (himg : st.canvasImage = some img) :
    ∃ res, extract_information st = some res ∧
      res.canvas.is_fingerprinting = true ∧
      (∀ info payload bs, splitFirst ',' img.toList = some (info, payload) →
        containsSubstring "base64".toList info = true →
        b64decode payload = some bs → bs ≠ [] →
        res.fingerprinting_canvas = some bs) ∧
      (splitFirst ',' img.toList = none → res.fingerprinting_canvas = none) ∧
      (∀ info payload, splitFirst ',' img.toList = some (info, payload) →
        containsSubstring "base64".toList info = false →
        res.fingerprinting_canvas = none) ∧
      (∀ info payload, splitFirst ',' img.toList = some (info, payload) →
        containsSubstring "base64".toList info = true →
        b64decode payload = none →
        res.fingerprinting_canvas = none) ∧
      (∀ info payload, splitFirst ',' img.toList = some (info, payload) →
        containsSubstring "base64".toList info = true →
        b64decode payload = some [] →
        res.fingerprinting_canvas = none) := by
  refine ⟨_, extract_positive hu hs himg, rfl, ?_, ?_, ?_, ?_, ?_⟩
  · intro info payload bs hsp hb hdec hbs
    show (match dataUrlContent img with
          | some bs => if bs = [] then none else some bs
          | none => none) = some bs
    rw [dataUrlContent_split img hsp, if_pos hb, hdec]
    simp [hbs]
  · intro hsp
    show (match dataUrlContent img with
          | some bs => if bs = [] then none else some bs
          | none => none) = none
    rw [dataUrlContent_noComma img hsp]
  · intro info payload hsp hb
    show (match dataUrlContent img with
          | some bs => if bs = [] then none else some bs
          | none => none) = none
    have hbf : ¬(containsSubstring "base64".toList info = true) := by
      rw [hb]; exact Bool.false_ne_true
    rw [dataUrlContent_split img hsp, if_neg hbf]
  · intro info payload hsp hb hdec
    show (match dataUrlContent img with
          | some bs => if bs = [] then none else some bs
          | none => none) = none
    rw [dataUrlContent_split img hsp, if_pos hb, hdec]
  · intro info payload hsp hb hdec
    show (match dataUrlContent img with
          | some bs => if bs = [] then none else some bs
          | none => none) = none
    rw [dataUrlContent_split img hsp, if_pos hb, hdec]
    rfl

theorem canvas_evidence_decoding_amended_witness :
    ∃ res, extract_information stHello = some res ∧
      res.canvas.is_fingerprinting = true ∧
      res.fingerprinting_canvas = some [104, 101, 108, 108, 111] := by
  obtain ⟨res, h1, h2, h3, _, _, _, _⟩ :=
    canvas_evidence_decoding_amended stHello "data:image/png;base64,aGVsbG8="
      (by decide) (by decide) (by decide)
  exact ⟨res, h1, h2,
    h3 "data:image/png;base64".toList "aGVsbG8=".toList
      [104, 101, 108, 108, 111] (by decide) (by decide) (by decide) (by decide)⟩

/-- C10: empty-payload edge case.  On a positive canvas decision whose
candidate has a base64 header and an empty payload after the first comma,
the decode succeeds with zero bytes, and no artifact is produced because
only non-empty decoded content is persisted, while `is_fingerprinting`
stays true and no error is raised. -/
theorem empty_payload_no_artifact (st : FPState α) (img : String)
    (info : List Char)
    (hu : usesText st.canvasCalls = true)
    (hs : st.canvasCallStack.isSome = true)
    (himg : st.canvasImage = some img)
    (hsp : splitFirst ',' img.toList = some (info, []))
    (hb : containsSubstring "base64".toList info = true) :
    b64decode ([] : List Char) = some [] ∧
    ∃ res, extract_information st = some res ∧
      res.canvas.is_fingerprinting = true ∧
      res.fingerprinting_canvas = none := by
  refine ⟨rfl, _, extract_positive hu hs himg, rfl, ?_⟩
  show (match dataUrlContent img with
        | some bs => if bs = [] then none else some bs
        | none => none) = none
  rw [dataUrlContent_split img hsp, if_pos hb]
  rfl

theorem empty_payload_no_artifact_witness :
    b64decode ([] : List Char) = some [] ∧
    ∃ res, extract_information stEmptyPayload = some res ∧
      res.canvas.is_fingerprinting = true ∧
      res.fingerprinting_canvas = none :=
  empty_payload_no_artifact stEmptyPayload "data:image/png;base64,"
    "data:image/png;base64".toList
    (by decide) (by decide) (by decide) (by decide) (by decide)

end Privacyscanner
